import Mathlib

/-!
Shallow embedding of the parameter-loading layer of the flavio repository
(`flavio/parameters.py` and `flavio/physics/mesonmixing/common.py`),
together with theorems settling the specification claims about it.

Python exceptions are modelled by an `Except PyError` result; Python floats
are modelled by `ℚ` (all the arithmetic the claims touch is exact);
the numerical eigenvalue routine `np.linalg.eigvals` (an external numpy
collaborator) is modelled by an abstract positivity test passed as a
function argument.
-/

namespace Flavio

/-- Python exception kinds raised by the embedded code. -/
inductive PyError where
  | unboundLocalError
  | keyError
  | valueError
  | indexError
  | assertionError
  deriving DecidableEq, Repr

/-- Success test on an embedded Python call (`Except.isOk` as a plain definition). -/
def exceptOk {ε α : Type} : Except ε α → Bool
  | .ok _ => true
  | .error _ => false

/-! ### flavio/physics/mesonmixing/common.py -/

/-- The module-level `meson_quark` mapping of `mesonmixing/common.py`. -/
def meson_quark : List (String × String) :=
  [("B0", "bd"), ("Bs", "bs"), ("K0", "sd"), ("D0", "cu")]

/-- The pair of numbers `(J, g)` selected by the branches of `bag_msbar2rgi`;
the function's return value `alpha_s**(-g) * (1 + alpha_s/(4*pi) * J)` is a
pure real function of these two coefficients and of `alpha_s`. -/
structure RgiCoeffs where
  J : ℚ
  g : ℚ
  deriving DecidableEq, Repr

/-- The function `bag_msbar2rgi(alpha_s, meson)` of `mesonmixing/common.py`: `J` is
initialised to an empty dict but `g` is never initialised, so the branches
`meson in ['B0', 'Bs']` and `meson == 'K0'` are the only ones on which the
final expression `alpha_s**(-g) * (1 + alpha_s/(4*pi) * J)` can be evaluated;
for any other `meson` the read of the unassigned local `g` raises
`UnboundLocalError`.  The embedding returns the selected coefficients
(together with `alpha_s`) on success. -/
def bag_msbar2rgi (alpha_s : ℚ) (meson : String) : Except PyError (ℚ × RgiCoeffs) :=
  if meson = "B0" ∨ meson = "Bs" then
    .ok (alpha_s, ⟨5165/3174, 6/23⟩)
  else if meson = "K0" then
    .ok (alpha_s, ⟨307/162, 2/9⟩)
  else
    .error .unboundLocalError

/-! ### Correlated-value loader: covariance construction
(`_read_yaml_object_values_correlated`, flavio/parameters.py lines 41-69) -/

/-- The structure returned by the external collaborator
`flavio._parse_errors.errors_from_string` (spec section 6): a central value, a
list of symmetric error components and a list of asymmetric `(right, left)`
error pairs. -/
structure ErrorDict where
  central_value : ℚ
  symmetric_errors : List ℚ
  asymmetric_errors : List (ℚ × ℚ)

/-- The `squared_error` accumulation loop of
`_read_yaml_object_values_correlated` (parameters.py lines 53-57): starting
from `0.`, add `sym_err**2` for each symmetric component, then
`asym_err[0]*asym_err[1]` for each asymmetric pair.  The loader then appends
`sqrt(squared_error)` to the error vector. -/
def combinedSquaredError (d : ErrorDict) : ℚ :=
  let s := d.symmetric_errors.foldl (fun acc e => acc + e ^ 2) 0
  d.asymmetric_errors.foldl (fun acc e => acc + e.1 * e.2) s

/-- Line 60 of parameters.py,
`covariance = np.outer(np.asarray(errors), np.asarray(errors))*correlation`
(parameters.py line 60): the entrywise (Hadamard) product of the outer product
of the error vector with itself and the correlation matrix. -/
def buildCovariance {n : ℕ} (errors : Fin n → ℚ) (correlation : Matrix (Fin n) (Fin n) ℚ) :
    Matrix (Fin n) (Fin n) ℚ :=
  Matrix.hadamard (Matrix.vecMulVec errors errors) correlation

/-- The damping pass of parameters.py line 65:
`correlation = (correlation - np.eye(n_dim))*0.99 + np.eye(n_dim)`. -/
def dampCorrelation {n : ℕ} (correlation : Matrix (Fin n) (Fin n) ℚ) :
    Matrix (Fin n) (Fin n) ℚ :=
  (99/100 : ℚ) • (correlation - 1) + 1

/-- The positive-definiteness check / repair / abort logic of
`_read_yaml_object_values_correlated` (parameters.py lines 60-68).  `check`
models the external numpy test `np.all(np.linalg.eigvals(covariance) > 0)`
(all eigenvalues strictly positive).  If the first covariance fails the check,
the correlation matrix is damped once and the covariance rebuilt; if the
rebuilt covariance still fails, the `assert` raises (no further retry). -/
def loadCovariance {n : ℕ} (check : Matrix (Fin n) (Fin n) ℚ → Bool)
    (errors : Fin n → ℚ) (correlation : Matrix (Fin n) (Fin n) ℚ) :
    Except PyError (Matrix (Fin n) (Fin n) ℚ) :=
  let covariance := buildCovariance errors correlation
  if check covariance = false then
    let correlation' := dampCorrelation correlation
    let covariance' := buildCovariance errors correlation'
    if check covariance' = false then
      .error .assertionError
    else
      .ok covariance'
  else
    .ok covariance

/-! ### Spec-modelled Parameter registry and ParameterConstraints
(`flavio.classes`, not under `src/`) -/

/-- The univariate distributions constructed by `read_pdg`
(spec section 4.2). -/
inductive Dist where
  | normal (central error : ℚ)
  | asymmetricNormal (central rightDeviation leftDeviation : ℚ)
  deriving DecidableEq, Repr

/-- Modelled from the spec: the state `read_pdg` acts on — the process-wide
`Parameter` registry (spec section 4.1; `flavio.classes.Parameter` is not
under `src/`) and the `ParameterConstraints` groups (spec section 4.3): an
ordered list of constraint groups, each an ordered list of parameter names
with a joint distribution. -/
structure PState where
  registry : List String
  groups : List (List String × Dist)
  deriving DecidableEq, Repr

/-- The constraint groups containing a given parameter name. -/
def groupsOn (st : PState) (name : String) : List (List String × Dist) :=
  st.groups.filter (fun g => name ∈ g.1)

/-- Modelled from the spec: whether `name` currently has a constraint. -/
def hasConstraint (st : PState) (name : String) : Bool :=
  st.groups.any (fun g => name ∈ g.1)

/-- Modelled from the spec: `ParameterConstraints.remove_constraint(name)`
(spec section 4.3): removes the constraint group(s) containing `name`
entirely — all co-constrained parameters lose the shared constraint. -/
def removeConstraint (st : PState) (name : String) : PState :=
  { st with groups := st.groups.filter (fun g => name ∉ g.1) }

/-- Modelled from the spec: `ParameterConstraints.add_constraint(names, d)`
(spec section 4.3): registers a new joint constraint group over `names`. -/
def addConstraint (st : PState) (names : List String) (d : Dist) : PState :=
  { st with groups := st.groups ++ [(names, d)] }

/-! ### read_pdg (flavio/parameters.py lines 201-257) -/

/-- The `try/except KeyError` upsert block of `read_pdg` (parameters.py
lines 207-213 and 239-245): `Parameter[name]` raises `KeyError` when `name`
is not registered, and `remove_constraint(name)` raises when `name` has no
constraint; in either case the `except` handler runs `Parameter(name)`,
which registers the name when it is new and is idempotent otherwise
(spec section 4.1). -/
def pdgUpsertParameter (st : PState) (name : String) : PState :=
  if name ∈ st.registry then
    if hasConstraint st name then removeConstraint st name
    else st
  else
    { st with registry := st.registry ++ [name] }

/-- One constraint installation of `read_pdg`: the upsert block followed by
`constraints.add_constraint([parameter_name], distribution)`. -/
def pdgInstallConstraint (st : PState) (name : String) (d : Dist) : PState :=
  addConstraint (pdgUpsertParameter st name) [name] d

/-- The mass-distribution construction of `read_pdg` (parameters.py lines
225-233): `m_left = abs(m_left)`, then a `NormalDistribution` when the two
errors coincide and an `AsymmetricNormalDistribution` otherwise. -/
def pdgMassDist (m_central m_right m_left : ℚ) : Dist :=
  let m_left := |m_left|
  if m_right = m_left then .normal m_central m_right
  else .asymmetricNormal m_central m_right m_left

/-- The lifetime derivation of `read_pdg` (parameters.py lines 236-257):
`G_left = abs(G_left)`, `tau_central = 1/G_central`,
`tau_left = G_left/G_central**2`, `tau_right = G_right/G_central**2`,
installed as `NormalDistribution(tau_central, tau_right)` when the two
deviations coincide and as `AsymmetricNormalDistribution(tau_central,
right_deviation=tau_right, left_deviation=tau_left)` otherwise. -/
def pdgLifetimeDist (G_central G_right G_left : ℚ) : Dist :=
  let G_left := |G_left|
  let tau_central := 1 / G_central
  let tau_left := G_left / G_central ^ 2
  let tau_right := G_right / G_central ^ 2
  if tau_left = tau_right then .normal tau_central tau_right
  else .asymmetricNormal tau_central tau_right tau_left

/-- One particle's installation step in `read_pdg` (parameters.py lines
225-257): install the mass constraint; then, if the parsed width central
value is `0` (blank width column, width unknown), `continue` — the lifetime
constraint is skipped entirely; otherwise install the lifetime constraint
derived from the width. -/
def pdgInstallParticle (st : PState) (massName tauName : String)
    (mass width : ℚ × ℚ × ℚ) : PState :=
  let st1 := pdgInstallConstraint st massName (pdgMassDist mass.1 mass.2.1 mass.2.2)
  if width.1 = 0 then st1
  else pdgInstallConstraint st1 tauName (pdgLifetimeDist width.1 width.2.1 width.2.2)

/-! ### _read_pdg_masswidth (flavio/parameters.py lines 127-181):
fixed-width line parsing, on `List Char` -/

/-- Python slicing `line[a:b]` (non-negative indices; indices past the end
are clamped, exactly as in Python). -/
def pySlice {α : Type} (l : List α) (a b : ℕ) : List α :=
  (l.take b).drop a

/-- Python `str.strip()`: remove leading and trailing whitespace. -/
def pyStrip (l : List Char) : List Char :=
  ((l.dropWhile Char.isWhitespace).reverse.dropWhile Char.isWhitespace).reverse

/-- Python `str.split()` with no argument: split on whitespace runs,
discarding empty pieces. -/
def pySplitWS (l : List Char) : List (List Char) :=
  (l.splitOnP Char.isWhitespace).filter (fun w => w ≠ [])

/-- Python `str.split(',')`: split on commas, keeping empty pieces. -/
def pySplitComma (l : List Char) : List (List Char) :=
  l.splitOn ','

/-- One particle entry produced from a data row of the PDG mass/width table
(one per ID code of the row). -/
structure PdgEntry where
  id : List Char
  charge : List Char
  name : List Char
  mass : ℚ × ℚ × ℚ
  width : ℚ × ℚ × ℚ
  deriving DecidableEq, Repr

/-- The width-column parsing of `_read_pdg_masswidth` (parameters.py lines
156-160): the width is taken from the slices `line[70:88]`, `line[89:97]`,
`line[98:106]`; when the first slice is blank after stripping, the width is
recorded as `(0, 0, 0)` without calling `float`; otherwise all three slices
go through `float` (`toFloat = none` models `float()` raising
`ValueError`). -/
def parsePdgWidth (toFloat : List Char → Option ℚ) (line : List Char) :
    Option (ℚ × ℚ × ℚ) :=
  if pyStrip (pySlice line 70 88) = [] then some (0, 0, 0)
  else
    match toFloat (pySlice line 70 88), toFloat (pySlice line 89 97),
          toFloat (pySlice line 98 106) with
    | some w1, some w2, some w3 => some (w1, w2, w3)
    | _, _, _ => none

/-- One line of the loop body of `_read_pdg_masswidth` (parameters.py lines
151-178), parameterised by the external Python `float` parser `toFloat`.
`line.strip()[0]` raises `IndexError` on an all-whitespace line; a line whose
first non-whitespace character is `*` is skipped (`.ok none`, no entries);
then the mass slices `line[33:51]`, `line[52:60]`, `line[61:69]` go through
`float` (`ValueError` on failure), the width column is parsed, the ID codes
are `line[0:32].split()`, and the name column `line[107:128].split()` must
have at least two fields (`IndexError` otherwise) — the first is the particle
name, the second splits on commas into the charge labels.  A row whose
number of ID codes differs from its number of charge labels raises
`ValueError`; otherwise one entry per ID code is produced. -/
def processPdgLine (toFloat : List Char → Option ℚ) (line : List Char) :
    Except PyError (Option (List PdgEntry)) :=
  match (pyStrip line).head? with
  | none => .error .indexError
  | some c =>
    if c = '*' then .ok none
    else
      match toFloat (pySlice line 33 51), toFloat (pySlice line 52 60),
            toFloat (pySlice line 61 69) with
      | some m1, some m2, some m3 =>
        match parsePdgWidth toFloat line with
        | none => .error .valueError
        | some w =>
          let ids := pySplitWS (pySlice line 0 32)
          match pySplitWS (pySlice line 107 128) with
          | nameCol :: chargeCol :: _ =>
            let charges := pySplitComma chargeCol
            if ids.length ≠ charges.length then .error .valueError
            else
              .ok (some ((ids.zip charges).map (fun p =>
                { id := p.1, charge := pyStrip p.2, name := nameCol,
                  mass := (m1, m2, m3), width := w })))
          | _ => .error .indexError
      | _, _, _ => .error .valueError

/-! ### _read_yaml_object_values and the correlated collection loop
(flavio/parameters.py lines 28-32 and 44-58) -/

/-- The loader `_read_yaml_object_values` (parameters.py lines 28-32), with the
univariate `set_constraint` of `ParameterConstraints` (spec section 4.3;
`flavio.classes` is not under `src/`) passed as an abstract state transformer
`setC`: for each `(name, value)` entry, `Parameter[parameter_name]` raises
`KeyError` when the name is unregistered — before `set_constraint` runs for
that entry. -/
def readYamlObjectValues {V S : Type} (setC : S → String → V → S)
    (registry : List String) : S → List (String × V) → Except PyError S
  | st, [] => .ok st
  | st, (name, value) :: rest =>
    if name ∈ registry then
      readYamlObjectValues setC registry (setC st name value) rest
    else
      .error .keyError

/-- The per-group collection loop of `_read_yaml_object_values_correlated`
(parameters.py lines 44-58): for each `{name: value}` item,
`Parameter[parameter_name]` raises `KeyError` when the name is unregistered;
otherwise the name, the central value and the combined squared error are
collected (the loader appends `sqrt(squared_error)` to its error list; the
square root is settled by `combined_error_formula`).  Only after the whole
group is collected does the loader build the covariance and call
`add_constraint` (lines 59-69), so a `KeyError` here means no constraint of
the group is ever installed. -/
def collectGroupValues (registry : List String) :
    List (String × ErrorDict) → Except PyError (List String × List ℚ × List ℚ)
  | [] => .ok ([], [], [])
  | (name, d) :: rest =>
    if name ∈ registry then
      match collectGroupValues registry rest with
      | .ok (ns, cs, es) =>
        .ok (name :: ns, d.central_value :: cs, combinedSquaredError d :: es)
      | .error e => .error e
    else
      .error .keyError

/-! ### _read_yaml_object_metadata (flavio/parameters.py lines 14-21) -/

/-- Parameter metadata (spec sections 3 and 4.1): optional description and
optional TeX display label. -/
structure ParamMeta where
  description : Option String
  tex : Option String
  deriving DecidableEq, Repr

/-- One metadata entry of the parsed YAML mapping: the outer `Option` models
whether the key is present in the info dict, the inner one whether its value
is `None` (the loader only assigns when the key is present and the value is
not `None`). -/
structure MetaInfo where
  description : Option (Option String)
  tex : Option (Option String)
  deriving DecidableEq, Repr

/-- Modelled from the spec: the state seen by the metadata loader — the
process-wide `Parameter` registry with its metadata (spec section 4.1;
`flavio.classes.Parameter` is not under `src/`) together with the
`ParameterConstraints` instance the loader receives, abstracted as a value of
an arbitrary type `C`. -/
structure MetaState (C : Type) where
  params : List (String × ParamMeta)
  constraints : C

/-- Modelled from the spec: `Parameter(name)` (spec section 4.1): returns the
existing instance when `name` is already registered, else creates and
registers a new one with empty metadata; construction never fails. -/
def parameterConstruct (ps : List (String × ParamMeta)) (name : String) :
    List (String × ParamMeta) :=
  if ps.any (fun p => p.1 = name) then ps else ps ++ [(name, ⟨none, none⟩)]

/-- The assignment `p.description = info['description']` on the registered
parameter `name`. -/
def setParamDescription (ps : List (String × ParamMeta)) (name : String)
    (d : String) : List (String × ParamMeta) :=
  ps.map (fun p => if p.1 = name then (p.1, ⟨some d, p.2.tex⟩) else p)

/-- The assignment `p.tex = info['tex']` on the registered parameter
`name`. -/
def setParamTex (ps : List (String × ParamMeta)) (name : String)
    (t : String) : List (String × ParamMeta) :=
  ps.map (fun p => if p.1 = name then (p.1, ⟨p.2.description, some t⟩) else p)

/-- One entry of `_read_yaml_object_metadata` (parameters.py lines 16-21):
`p = Parameter(parameter_name)`, then `p.description` is assigned when the
`description` key is present and not `None`, and `p.tex` when the `tex` key
is present and not `None`.  The loader's `constraints` argument is never
used. -/
def metadataEntryStep {C : Type} (st : MetaState C) (name : String)
    (info : MetaInfo) : MetaState C :=
  let ps0 := parameterConstruct st.params name
  let ps1 := match info.description with
    | some (some d) => setParamDescription ps0 name d
    | _ => ps0
  let ps2 := match info.tex with
    | some (some t) => setParamTex ps1 name t
    | _ => ps1
  { st with params := ps2 }

/-- The loader `_read_yaml_object_metadata` (parameters.py lines 14-21): the entry step
folded over the parsed mapping. -/
def readYamlObjectMetadata {C : Type} (st : MetaState C)
    (entries : List (String × MetaInfo)) : MetaState C :=
  entries.foldl (fun s e => metadataEntryStep s e.1 e.2) st

/-- The metadata currently registered for `name`. -/
def getMeta (ps : List (String × ParamMeta)) (name : String) :
    Option ParamMeta :=
  (ps.find? (fun p => p.1 = name)).map Prod.snd

/-- Witness inputs for the line-parser claims: a constant external `float`
parser, a header line and a data row with two ID codes but one charge
label. -/
def tfZero : List Char → Option ℚ := fun _ => some 0

/-- A header/comment line of the PDG table (first non-blank character `*`). -/
def pdgStarLine : List Char := "* MASSES AND WIDTHS".data

/-- A malformed data row: two ID codes in columns 0-32 but a single charge
label in the name/charge column group starting at column 107. -/
def pdgBadLine : List Char :=
  "1 2".data ++ List.replicate 104 ' ' ++ "K 0".data

/-! ### Auxiliary lemmas -/

/-- After `Parameter(name)`, the name is registered: `getMeta` finds some
metadata for it. -/
theorem getMeta_parameterConstruct (ps : List (String × ParamMeta))
    (name : String) :
    ∃ m, getMeta (parameterConstruct ps name) name = some m := by
  unfold parameterConstruct getMeta
  by_cases h : ps.any (fun p => decide (p.1 = name)) = true
  · rw [if_pos h]
    obtain ⟨p, hp, hpred⟩ := List.any_eq_true.mp h
    have hs : (ps.find? (fun p => decide (p.1 = name))).isSome :=
      List.find?_isSome.mpr ⟨p, hp, hpred⟩
    obtain ⟨q, hq⟩ := Option.isSome_iff_exists.mp hs
    exact ⟨q.2, by rw [hq]; rfl⟩
  · rw [if_neg h]
    have hnone : ps.find? (fun p => decide (p.1 = name)) = none := by
      rw [List.find?_eq_none]
      intro x hx
      exact fun hpx => h (List.any_eq_true.mpr ⟨x, hx, hpx⟩)
    rw [List.find?_append, hnone, Option.none_or]
    exact ⟨⟨none, none⟩, by simp [List.find?]⟩

/-- Setting the description of `name` rewrites its metadata entry and keeps
its TeX label. -/
theorem getMeta_setParamDescription (ps : List (String × ParamMeta))
    (name : String) (d : String) :
    getMeta (setParamDescription ps name d) name =
      (getMeta ps name).map (fun m => ⟨some d, m.tex⟩) := by
  induction ps with
  | nil => rfl
  | cons p rest ih =>
    obtain ⟨n, m⟩ := p
    by_cases h : n = name
    · simp [setParamDescription, getMeta, h, List.find?_cons_of_pos]
    · simp only [setParamDescription, List.map_cons] at ih ⊢
      rw [if_neg (by simpa using h)]
      unfold getMeta at ih ⊢
      rw [List.find?_cons_of_neg _ (by simpa using h),
        List.find?_cons_of_neg _ (by simpa using h)]
      exact ih

/-- Setting the TeX label of `name` rewrites its metadata entry and keeps
its description. -/
theorem getMeta_setParamTex (ps : List (String × ParamMeta))
    (name : String) (t : String) :
    getMeta (setParamTex ps name t) name =
      (getMeta ps name).map (fun m => ⟨m.description, some t⟩) := by
  induction ps with
  | nil => rfl
  | cons p rest ih =>
    obtain ⟨n, m⟩ := p
    by_cases h : n = name
    · simp [setParamTex, getMeta, h, List.find?_cons_of_pos]
    · simp only [setParamTex, List.map_cons] at ih ⊢
      rw [if_neg (by simpa using h)]
      unfold getMeta at ih ⊢
      rw [List.find?_cons_of_neg _ (by simpa using h),
        List.find?_cons_of_neg _ (by simpa using h)]
      exact ih

/-- The metadata entry step never changes the constraints component. -/
theorem metadataEntryStep_constraints {C : Type} (st : MetaState C)
    (name : String) (info : MetaInfo) :
    (metadataEntryStep st name info).constraints = st.constraints := rfl

/-- A left fold that adds `f e` for each element equals the initial value plus
the sum of the mapped list. -/
theorem foldl_add_map_sum {α : Type} (f : α → ℚ) (init : ℚ) (l : List α) :
    l.foldl (fun acc e => acc + f e) init = init + (l.map f).sum := by
  induction l generalizing init with
  | nil => simp
  | cons a t ih => simp [List.foldl_cons, ih, add_assoc]

/-! ### Claim theorems (first group) -/

/-- C10: `bag_msbar2rgi(alpha_s, meson)` is only defined for `meson` equal to
`'B0'`, `'Bs'` or `'K0'`; for any other meson argument the exponent `g` is
never assigned and the call fails with an unbound-local error instead of
returning a value — in particular for `'D0'`, which appears in the module's
`meson_quark` mapping. -/
theorem bag_msbar2rgi_domain :
    (∀ (a : ℚ) (m : String),
      exceptOk (bag_msbar2rgi a m) = true ↔ (m = "B0" ∨ m = "Bs" ∨ m = "K0")) ∧
    ("D0", "cu") ∈ meson_quark ∧
    (∀ a : ℚ, bag_msbar2rgi a "D0" = .error .unboundLocalError) := by
  refine ⟨fun a m => ?_, by simp [meson_quark], fun a => by simp [bag_msbar2rgi]⟩
  unfold bag_msbar2rgi
  by_cases h1 : m = "B0" ∨ m = "Bs"
  · rw [if_pos h1]
    simp [exceptOk]
    tauto
  · rw [if_neg h1]
    by_cases h2 : m = "K0"
    · rw [if_pos h2]
      simp [exceptOk]
      tauto
    · rw [if_neg h2]
      simp [exceptOk]
      tauto

/-- C1: construction of the joint constraint's covariance succeeds iff the
positivity test (all eigenvalues strictly positive) passes for the covariance
built from the original correlation matrix or for the covariance rebuilt from
the once-damped correlation `0.99*(C - I) + I`; when both fail, loading aborts
with the fatal assertion error and is not retried further. -/
theorem loadCovariance_ok_iff {n : ℕ} (check : Matrix (Fin n) (Fin n) ℚ → Bool)
    (errors : Fin n → ℚ) (C : Matrix (Fin n) (Fin n) ℚ) :
    (exceptOk (loadCovariance check errors C) = true ↔
      (check (buildCovariance errors C) = true ∨
       check (buildCovariance errors ((99/100 : ℚ) • (C - 1) + 1)) = true)) ∧
    (loadCovariance check errors C = .error .assertionError ↔
      (check (buildCovariance errors C) = false ∧
       check (buildCovariance errors ((99/100 : ℚ) • (C - 1) + 1)) = false)) := by
  unfold loadCovariance dampCorrelation
  by_cases h1 : check (buildCovariance errors C) = false
  · by_cases h2 : check (buildCovariance errors ((99/100 : ℚ) • (C - 1) + 1)) = false <;>
      simp [h1, h2, exceptOk]
  · have h1' : check (buildCovariance errors C) = true := by
      simpa using h1
    simp [h1', exceptOk]

/-- C2: the combined symmetric error of each parameter of a correlated group
is the square root of the sum of the squares of its symmetric error
components plus the sum over asymmetric pairs of the product right*left:
`error_i = sqrt(sum(sym_j^2) + sum(asym_k_right * asym_k_left))`. -/
theorem combined_error_formula (d : ErrorDict) :
    Real.sqrt (combinedSquaredError d : ℝ) =
      Real.sqrt ((((d.symmetric_errors.map (fun s => s ^ 2)).sum +
        (d.asymmetric_errors.map (fun a => a.1 * a.2)).sum : ℚ) : ℝ)) := by
  have h : combinedSquaredError d =
      (d.symmetric_errors.map (fun s => s ^ 2)).sum +
        (d.asymmetric_errors.map (fun a => a.1 * a.2)).sum := by
    unfold combinedSquaredError
    rw [foldl_add_map_sum, foldl_add_map_sum]
    ring
  rw [h]

/-- C3: the covariance matrix is the entrywise product of the outer product
of the error vector with itself and the correlation matrix; for two
parameters with errors 0.1 and 0.2 and correlation 0.9 the resulting 2×2
covariance is `[[0.01, 0.018], [0.018, 0.04]]`. -/
theorem covariance_outer_times_correlation :
    (∀ (n : ℕ) (errors : Fin n → ℚ) (C : Matrix (Fin n) (Fin n) ℚ) (i j : Fin n),
      buildCovariance errors C i j = errors i * errors j * C i j) ∧
    buildCovariance ![1/10, 2/10] (Matrix.of ![![1, 9/10], ![9/10, 1]]) =
      Matrix.of ![![1/100, 18/1000], ![18/1000, 4/100]] := by
  constructor
  · intro n errors C i j
    simp [buildCovariance, Matrix.hadamard, Matrix.vecMulVec]
  · ext i j
    fin_cases i <;> fin_cases j <;>
      norm_num [buildCovariance, Matrix.hadamard, Matrix.vecMulVec]

/-- C4 (evaluation of the code at the failing input): for a width with
central value 1.0, right error 0.1 and left error 0.05, `read_pdg` derives a
lifetime distribution with central value 1.0, right deviation 0.1 and left
deviation 0.05 — the error sides are NOT swapped under the inversion
`tau = 1/Gamma`, contradicting the claimed right-error ≈ 0.05 /
left-error ≈ 0.1. -/
theorem pdg_lifetime_keeps_sides :
    pdgLifetimeDist 1 (1/10) (1/20) =
      Dist.asymmetricNormal 1 (1/10) (1/20) := by
  have h : |(1/20 : ℚ)| = 1/20 := abs_of_pos (by norm_num)
  norm_num [pdgLifetimeDist, h]

/-- C5: a `read_pdg` constraint installation overwrites: when the parameter
name is already registered, any pre-existing constraint group on it is
removed before the new univariate constraint is added (so the new constraint
is the only one on the name afterwards); when it is not registered, the
parameter is first created and the new constraint appended. -/
theorem pdg_install_overwrites (st : PState) (name : String) (d : Dist) :
    (name ∈ st.registry →
      (pdgInstallConstraint st name d).registry = st.registry ∧
      groupsOn (pdgInstallConstraint st name d) name = [([name], d)]) ∧
    (name ∉ st.registry →
      (pdgInstallConstraint st name d).registry = st.registry ++ [name] ∧
      groupsOn (pdgInstallConstraint st name d) name =
        groupsOn st name ++ [([name], d)]) := by
  unfold pdgInstallConstraint addConstraint pdgUpsertParameter groupsOn
  constructor
  · intro hmem
    rw [if_pos hmem]
    by_cases hc : hasConstraint st name = true
    · rw [if_pos hc]
      unfold removeConstraint
      refine ⟨rfl, ?_⟩
      simp only [List.filter_append, List.filter_filter]
      simp
    · rw [if_neg hc]
      refine ⟨rfl, ?_⟩
      rw [Bool.not_eq_true] at hc
      unfold hasConstraint at hc
      simp only [List.filter_append]
      have hnil : st.groups.filter (fun g => decide (name ∈ g.1)) = [] := by
        rw [List.filter_eq_nil_iff]
        intro g hg
        have := (List.any_eq_false.mp hc) g hg
        simpa using this
      rw [hnil]
      simp
  · intro hmem
    rw [if_neg hmem]
    exact ⟨rfl, by simp [List.filter_append]⟩

/-- Witness for C5 at a concrete state: the name `m_t` is registered and
already constrained; installing a new constraint leaves the registry alone
and replaces the old group by the new one. -/
theorem pdg_install_overwrites_witness :
    "m_t" ∈ (PState.mk ["m_t"] [(["m_t"], Dist.normal 174 1)]).registry ∧
    (pdgInstallConstraint (PState.mk ["m_t"] [(["m_t"], Dist.normal 174 1)])
        "m_t" (Dist.normal 173 1)).registry = ["m_t"] ∧
    groupsOn (pdgInstallConstraint (PState.mk ["m_t"] [(["m_t"], Dist.normal 174 1)])
        "m_t" (Dist.normal 173 1)) "m_t" = [(["m_t"], Dist.normal 173 1)] := by
  have h := (pdg_install_overwrites (PState.mk ["m_t"] [(["m_t"], Dist.normal 174 1)])
    "m_t" (Dist.normal 173 1)).1 (by decide)
  exact ⟨by decide, h.1, h.2⟩

/-- C6: a table line whose first non-whitespace character is `*` is skipped
as a header/comment line and produces no particle entry; a data row whose
number of ID codes differs from its number of charge labels fails with
`ValueError` instead of producing a partial entry. -/
theorem pdg_line_star_skip_and_count_mismatch :
    (∀ (toFloat : List Char → Option ℚ) (line : List Char),
        (pyStrip line).head? = some '*' →
        processPdgLine toFloat line = .ok none) ∧
    (∀ (toFloat : List Char → Option ℚ) (line : List Char) (c : Char)
        (m1 m2 m3 : ℚ) (w : ℚ × ℚ × ℚ) (nameCol chargeCol : List Char)
        (rest : List (List Char)),
        (pyStrip line).head? = some c → c ≠ '*' →
        toFloat (pySlice line 33 51) = some m1 →
        toFloat (pySlice line 52 60) = some m2 →
        toFloat (pySlice line 61 69) = some m3 →
        parsePdgWidth toFloat line = some w →
        pySplitWS (pySlice line 107 128) = nameCol :: chargeCol :: rest →
        (pySplitWS (pySlice line 0 32)).length ≠ (pySplitComma chargeCol).length →
        processPdgLine toFloat line = .error .valueError) := by
  constructor
  · intro toFloat line h
    unfold processPdgLine
    rw [h]
    simp
  · intro toFloat line c m1 m2 m3 w nameCol chargeCol rest hhead hc h1 h2 h3 hw hsplit hlen
    unfold processPdgLine
    rw [hhead, h1, h2, h3, hw, hsplit]
    simp only [if_neg hc]
    rw [if_pos hlen]

/-- Witness for C6: the header line is skipped with no entry; the malformed
row raises `ValueError`. -/
theorem pdg_line_star_skip_and_count_mismatch_witness :
    processPdgLine tfZero pdgStarLine = .ok none ∧
    processPdgLine tfZero pdgBadLine = .error .valueError := by
  constructor
  · exact pdg_line_star_skip_and_count_mismatch.1 tfZero pdgStarLine (by decide)
  · exact pdg_line_star_skip_and_count_mismatch.2 tfZero pdgBadLine '1' 0 0 0
      (0, 0, 0) "K".data "0".data [] (by decide) (by decide) rfl rfl rfl
      (by decide) (by decide) (by decide)

/-- C9: a particle row whose width column is blank has its width recorded as
`(0, 0, 0)`, and `read_pdg` then installs only the mass constraint for such a
particle, skipping the lifetime constraint (no division by the zero width
central value occurs). -/
theorem pdg_blank_width_mass_only :
    (∀ (toFloat : List Char → Option ℚ) (line : List Char),
        pyStrip (pySlice line 70 88) = [] →
        parsePdgWidth toFloat line = some (0, 0, 0)) ∧
    (∀ (st : PState) (massName tauName : String) (mass width : ℚ × ℚ × ℚ),
        width.1 = 0 →
        pdgInstallParticle st massName tauName mass width =
          pdgInstallConstraint st massName
            (pdgMassDist mass.1 mass.2.1 mass.2.2)) := by
  constructor
  · intro toFloat line h
    unfold parsePdgWidth
    rw [if_pos h]
  · intro st massName tauName mass width h
    unfold pdgInstallParticle
    rw [if_pos h]

/-- Witness for C9: a line whose width slice is blank parses to width
`(0, 0, 0)`, and the installation step for a zero-width particle adds only
the mass constraint. -/
theorem pdg_blank_width_mass_only_witness :
    parsePdgWidth tfZero [] = some (0, 0, 0) ∧
    pdgInstallParticle (PState.mk ["m_D"] []) "m_D" "tau_D" (5, 1, 1) (0, 0, 0) =
      pdgInstallConstraint (PState.mk ["m_D"] []) "m_D" (pdgMassDist 5 1 1) := by
  constructor
  · exact pdg_blank_width_mass_only.1 tfZero [] rfl
  · exact pdg_blank_width_mass_only.2 (PState.mk ["m_D"] []) "m_D" "tau_D"
      (5, 1, 1) (0, 0, 0) rfl

/-- C7: both the uncorrelated-value loader and the correlated-value loader
fail fast on a value entry naming an unregistered parameter: the lookup
raises `KeyError`, so the load ends in the error and no constraint for that
entry is installed (`set_constraint` and `add_constraint` are never reached
for it). -/
theorem loaders_fail_fast_unregistered :
    (∀ {V S : Type} (setC : S → String → V → S) (registry : List String)
        (st : S) (entries : List (String × V)) (name : String),
        name ∈ entries.map Prod.fst → name ∉ registry →
        readYamlObjectValues setC registry st entries = .error .keyError) ∧
    (∀ (registry : List String) (values : List (String × ErrorDict))
        (name : String),
        name ∈ values.map Prod.fst → name ∉ registry →
        collectGroupValues registry values = .error .keyError) := by
  constructor
  · intro V S setC registry st entries name hmem hreg
    induction entries generalizing st with
    | nil => simp at hmem
    | cons e rest ih =>
      obtain ⟨n, v⟩ := e
      simp only [List.map_cons, List.mem_cons] at hmem
      unfold readYamlObjectValues
      by_cases hn : n ∈ registry
      · rw [if_pos hn]
        rcases hmem with h | h
        · exact absurd (h ▸ hn) hreg
        · exact ih _ h
      · rw [if_neg hn]
  · intro registry values name hmem hreg
    induction values with
    | nil => simp at hmem
    | cons e rest ih =>
      obtain ⟨n, d⟩ := e
      simp only [List.map_cons, List.mem_cons] at hmem
      unfold collectGroupValues
      by_cases hn : n ∈ registry
      · rw [if_pos hn]
        rcases hmem with h | h
        · exact absurd (h ▸ hn) hreg
        · rw [ih h]
      · rw [if_neg hn]

/-- Witness for C7: with only `a` registered, an entry for the unregistered
name `b` makes both loaders fail with `KeyError`. -/
theorem loaders_fail_fast_unregistered_witness :
    readYamlObjectValues (fun (st : List (String × ℚ)) n v => st ++ [(n, v)])
      ["a"] [] [("b", (1 : ℚ))] = .error .keyError ∧
    collectGroupValues ["a"] [("b", ⟨1, [], []⟩)] = .error .keyError := by
  constructor
  · exact loaders_fail_fast_unregistered.1
      (fun (st : List (String × ℚ)) n v => st ++ [(n, v)]) ["a"] []
      [("b", (1 : ℚ))] "b" (by decide) (by decide)
  · exact loaders_fail_fast_unregistered.2 ["a"] [("b", ⟨1, [], []⟩)] "b"
      (by decide) (by decide)

/-- C8: the metadata loader updates Parameter metadata only: the
`ParameterConstraints` component of the state is left unchanged by the whole
load, and an entry whose `description` and `tex` are present and not `None`
ends with exactly those values registered for its parameter. -/
theorem metadata_loader_updates_metadata_only :
    (∀ {C : Type} (st : MetaState C) (entries : List (String × MetaInfo)),
        (readYamlObjectMetadata st entries).constraints = st.constraints) ∧
    (∀ {C : Type} (st : MetaState C) (name : String) (info : MetaInfo)
        (d t : String),
        info.description = some (some d) → info.tex = some (some t) →
        getMeta (metadataEntryStep st name info).params name =
          some ⟨some d, some t⟩) := by
  constructor
  · intro C st entries
    induction entries generalizing st with
    | nil => rfl
    | cons e rest ih =>
      unfold readYamlObjectMetadata at ih ⊢
      rw [List.foldl_cons, ih, metadataEntryStep_constraints]
  · intro C st name info d t hd ht
    unfold metadataEntryStep
    rw [hd, ht]
    simp only
    obtain ⟨m0, hm0⟩ := getMeta_parameterConstruct st.params name
    rw [getMeta_setParamTex, getMeta_setParamDescription, hm0]
    rfl

/-- Witness for C8: loading the entry `m_x : {description: "test mass",
tex: "m_x"}` over a state with a numeric constraints component keeps the
constraints component and registers both metadata fields. -/
theorem metadata_loader_updates_metadata_only_witness :
    (readYamlObjectMetadata (MetaState.mk [] (37 : ℕ))
        [("m_x", ⟨some (some "test mass"), some (some "m_x")⟩)]).constraints = 37 ∧
    getMeta (metadataEntryStep (MetaState.mk [] (37 : ℕ)) "m_x"
        ⟨some (some "test mass"), some (some "m_x")⟩).params "m_x" =
      some ⟨some "test mass", some "m_x"⟩ := by
  constructor
  · exact metadata_loader_updates_metadata_only.1 (MetaState.mk [] (37 : ℕ))
      [("m_x", ⟨some (some "test mass"), some (some "m_x")⟩)]
  · exact metadata_loader_updates_metadata_only.2 (MetaState.mk [] (37 : ℕ))
      "m_x" ⟨some (some "test mass"), some (some "m_x")⟩ "test mass" "m_x"
      rfl rfl

end Flavio
